import Mathlib

/-!
Verification of `ut99-linux-amd64-installer.py`, a sequential installation
script.  The script's pipeline (fetch disc image, verify its MD5 checksum,
resolve and fetch a patch asset from release metadata, extract both archives,
batch-decompress `.uz` map assets) is shallowly embedded below: pure helpers
become Lean functions, the filesystem and network are explicit state records,
and Python exceptions become `Except` errors.  Bytes are `Nat` values and all
32-bit arithmetic is explicit `% 2 ^ 32`.
-/

set_option autoImplicit false
set_option maxRecDepth 100000

namespace UT99

/-! ## Byte-stream chunking

`md5sum` in the script reads its file with `iter(lambda: f.read(4096), b"")`,
i.e. as successive fixed-size chunks.  `chunksOf n l` is that read loop:
the first `n` bytes, then the chunks of the rest. -/

/-- Worker for `chunksOf`, structurally recursive on a fuel bound of the
list length (so that it reduces definitionally). -/
def chunksOfAux {α : Type} (n : Nat) : Nat → List α → List (List α)
  | _, [] => []
  | 0, _ :: _ => []
  | fuel + 1, x :: xs =>
    List.take n (x :: xs) :: chunksOfAux n fuel (List.drop (n - 1) xs)

/-- Split a list into successive chunks of at most `n` elements
(the last chunk may be shorter); `chunksOf n [] = []`. -/
def chunksOf {α : Type} (n : Nat) (l : List α) : List (List α) :=
  chunksOfAux n l.length l

/-! ## MD5 (the digest used by `hashlib.md5`)

The script's checksum step uses `hashlib.md5`.  We embed MD5 itself
(RFC 1321) over `Nat` bytes, with 32-bit overflow written as `% 2 ^ 32`,
so the checksum claims are about the real digest function. -/

/-- Reduce modulo `2 ^ 32`. -/
def mask32 (x : Nat) : Nat := x % 2 ^ 32

/-- Left-rotation of a 32-bit word by `n` places (`0 < n < 32`). -/
def rotl32 (x n : Nat) : Nat := mask32 ((x <<< n) ||| (x >>> (32 - n)))

/-- Bitwise complement within 32 bits. -/
def not32 (x : Nat) : Nat := x ^^^ (2 ^ 32 - 1)

/-- The MD5 nonlinear function for round `i`. -/
def md5F (i b c d : Nat) : Nat :=
  if i < 16 then (b &&& c) ||| (not32 b &&& d)
  else if i < 32 then (d &&& b) ||| (not32 d &&& c)
  else if i < 48 then b ^^^ c ^^^ d
  else c ^^^ (b ||| not32 d)

/-- The MD5 message-word index for round `i`. -/
def md5G (i : Nat) : Nat :=
  if i < 16 then i
  else if i < 32 then (5 * i + 1) % 16
  else if i < 48 then (3 * i + 5) % 16
  else (7 * i) % 16

/-- The MD5 per-round shift amounts. -/
def md5S : List Nat :=
  [7, 12, 17, 22, 7, 12, 17, 22, 7, 12, 17, 22, 7, 12, 17, 22,
   5, 9, 14, 20, 5, 9, 14, 20, 5, 9, 14, 20, 5, 9, 14, 20,
   4, 11, 16, 23, 4, 11, 16, 23, 4, 11, 16, 23, 4, 11, 16, 23,
   6, 10, 15, 21, 6, 10, 15, 21, 6, 10, 15, 21, 6, 10, 15, 21]

/-- The MD5 sine-derived additive constants. -/
def md5K : List Nat :=
  [0xd76aa478, 0xe8c7b756, 0x242070db, 0xc1bdceee,
   0xf57c0faf, 0x4787c62a, 0xa8304613, 0xfd469501,
   0x698098d8, 0x8b44f7af, 0xffff5bb1, 0x895cd7be,
   0x6b901122, 0xfd987193, 0xa679438e, 0x49b40821,
   0xf61e2562, 0xc040b340, 0x265e5a51, 0xe9b6c7aa,
   0xd62f105d, 0x02441453, 0xd8a1e681, 0xe7d3fbc8,
   0x21e1cde6, 0xc33707d6, 0xf4d50d87, 0x455a14ed,
   0xa9e3e905, 0xfcefa3f8, 0x676f02d9, 0x8d2a4c8a,
   0xfffa3942, 0x8771f681, 0x6d9d6122, 0xfde5380c,
   0xa4beea44, 0x4bdecfa9, 0xf6bb4b60, 0xbebfbc70,
   0x289b7ec6, 0xeaa127fa, 0xd4ef3085, 0x04881d05,
   0xd9d4d039, 0xe6db99e5, 0x1fa27cf8, 0xc4ac5665,
   0xf4292244, 0x432aff97, 0xab9423a7, 0xfc93a039,
   0x655b59c3, 0x8f0ccc92, 0xffeff47d, 0x85845dd1,
   0x6fa87e4f, 0xfe2ce6e0, 0xa3014314, 0x4e0811a1,
   0xf7537e82, 0xbd3af235, 0x2ad7d2bb, 0xeb86d391]

/-- The running MD5 state: the four 32-bit registers `a, b, c, d`. -/
structure MD5State where
  a : Nat
  b : Nat
  c : Nat
  d : Nat
deriving Repr, DecidableEq

/-- The MD5 initial state. -/
def md5Init : MD5State := ⟨0x67452301, 0xefcdab89, 0x98badcfe, 0x10325476⟩

/-- One MD5 round, rotating the registers and mixing in message word
`M[md5G i]`. -/
def md5Round (M : List Nat) (st : MD5State) (i : Nat) : MD5State :=
  let f := mask32 (st.a + md5F i st.b st.c st.d + md5K.getD i 0 +
    M.getD (md5G i) 0)
  ⟨st.d, mask32 (st.b + rotl32 f (md5S.getD i 0)), st.b, st.c⟩

/-- Process one 512-bit block (sixteen 32-bit words) and add the result to
the incoming state, modulo `2 ^ 32`. -/
def md5Block (st : MD5State) (M : List Nat) : MD5State :=
  let r := (List.range 64).foldl (md5Round M) st
  ⟨mask32 (st.a + r.a), mask32 (st.b + r.b), mask32 (st.c + r.c),
   mask32 (st.d + r.d)⟩

/-- Interpret up to four bytes as a little-endian 32-bit word. -/
def leWord (bytes : List Nat) : Nat :=
  bytes.getD 0 0 + 2 ^ 8 * bytes.getD 1 0 + 2 ^ 16 * bytes.getD 2 0 +
    2 ^ 24 * bytes.getD 3 0

/-- MD5 padding: a `0x80` byte, zeros up to 56 mod 64, then the bit length
as eight little-endian bytes (modulo `2 ^ 64`). -/
def md5Pad (msg : List Nat) : List Nat :=
  let len := msg.length
  let zeros := (119 - len % 64) % 64
  msg ++ [0x80] ++ List.replicate zeros 0 ++
    (List.range 8).map (fun i => 8 * len / 2 ^ (8 * i) % 2 ^ 8)

/-- The hexadecimal digit character for `n < 16` (lowercase). -/
def hexDigit (n : Nat) : Char :=
  if n < 10 then Char.ofNat (48 + n) else Char.ofNat (87 + n)

/-- Two lowercase hex digits for a byte. -/
def byteHex (b : Nat) : String :=
  String.mk [hexDigit (b / 16), hexDigit (b % 16)]

/-- A 32-bit word as eight lowercase hex digits, little-endian byte order
(as `hexdigest` prints it). -/
def wordHexLE (w : Nat) : String :=
  byteHex (w % 2 ^ 8) ++ byteHex (w / 2 ^ 8 % 2 ^ 8) ++
    byteHex (w / 2 ^ 16 % 2 ^ 8) ++ byteHex (w / 2 ^ 24 % 2 ^ 8)

/-- The full MD5 digest of a byte sequence, as a lowercase hexadecimal
string: pad, split into 64-byte blocks, fold `md5Block`, print. -/
def md5Hex (msg : List Nat) : String :=
  let blocks := (chunksOf 64 (md5Pad msg)).map (fun b => (chunksOf 4 b).map leWord)
  let st := blocks.foldl md5Block md5Init
  wordHexLE st.a ++ wordHexLE st.b ++ wordHexLE st.c ++ wordHexLE st.d

/-! ## `md5sum` (script lines 98–103)

`hashlib.md5()` is an accumulator object: each `update(chunk)` appends the
chunk to the byte stream hashed so far, and `hexdigest()` digests the whole
accumulated stream.  The script feeds it the file in 4096-byte chunks. -/

/-- The digest accumulator: the byte stream fed to it so far
(`hashlib.md5()` starts empty). -/
def md5CtxInit : List Nat := []

/-- Model of `hash_md5.update(chunk)`: append the chunk to the accumulated stream. -/
def md5CtxUpdate (ctx chunk : List Nat) : List Nat := ctx ++ chunk

/-- Model of `hash_md5.hexdigest()`: the lowercase hex MD5 of the accumulated
stream. -/
def md5CtxHexdigest (ctx : List Nat) : String := md5Hex ctx

/-- Model of `md5sum(filename)`: read the file in 4096-byte chunks, feed each chunk
to the accumulator, return the hex digest.  `fileBytes` is the content of
the file at `filename`. -/
def md5sum (fileBytes : List Nat) : String :=
  md5CtxHexdigest ((chunksOf 4096 fileBytes).foldl md5CtxUpdate md5CtxInit)

/-! ## Checksum verification (script lines 199–204)

`main` compares `md5sum(ut99_dest)` against the constant
`expected_iso_md5` with Python `!=`, a case-sensitive string
comparison, and aborts on mismatch. -/

/-- The expected MD5 of the ISO, exactly as the script's constant. -/
def expected_iso_md5 : String := "e5127537f44086f5ed36a9d29f992c00"

/-- The acceptance condition of step 3: the run continues (the file counts
as verified) exactly when `actual_md5 != expected` is false, i.e. on exact
string equality of the two hex strings. -/
def checksumAccepts (fileBytes : List Nat) (expected : String) : Bool :=
  md5sum fileBytes == expected

/-! ## Substring matching

Python's `needle in haystack` on strings is case-sensitive contiguous
substring containment. -/

/-- Does `p` occur at the very start of `s`? -/
def listStartsWith : List Char → List Char → Bool
  | [], _ => true
  | _ :: _, [] => false
  | a :: ps, b :: ss => a == b && listStartsWith ps ss

/-- Does `p` occur contiguously anywhere in `s`? -/
def listHasSubstr (p : List Char) : List Char → Bool
  | [] => p.isEmpty
  | c :: rest => listStartsWith p (c :: rest) || listHasSubstr p rest

/-- Python `needle in hay` for strings. -/
def strContains (hay needle : String) : Bool :=
  listHasSubstr needle.data hay.data

/-! ## Remote asset resolver (`get_linux_amd64_download_url`, lines 105–119)

`requests.get` is abstracted into the response the server would give;
`raise_for_status` raises `HTTPError` exactly for status codes 400–599,
`response.json()` raises if the body is not valid JSON, and the asset loop
returns `asset.get("browser_download_url")` of the first asset whose
(defaulted) name contains `"Linux-amd64"`. -/

/-- One entry of the metadata document's `"assets"` array.  Either JSON
field may be absent: `asset.get("name", "")` defaults to `""`,
`asset.get("browser_download_url")` defaults to `None`. -/
structure Asset where
  name : Option String
  browser_download_url : Option String
deriving Repr, DecidableEq

/-- The parsed release-metadata document; `data.get("assets", [])` defaults
a missing `"assets"` key to the empty list. -/
structure ReleaseDoc where
  assets : Option (List Asset)
deriving Repr, DecidableEq

/-- The outcome of the HTTP GET for the metadata URL: the status code, and
the parsed body (`none` when the body is not a valid document, in which
case `response.json()` raises). -/
structure HttpResp where
  status : Nat
  jsonBody : Option ReleaseDoc
deriving Repr, DecidableEq

/-- The exceptions `get_linux_amd64_download_url` can raise:
`transportError` is `requests.HTTPError` from `raise_for_status`,
`formatError` is the JSON decode error from `response.json()`. -/
inductive FetchError where
  | transportError
  | formatError
deriving Repr, DecidableEq

/-- The `for asset in data.get("assets", [])` loop: return
`asset.get("browser_download_url")` for the first asset whose
`asset.get("name", "")` contains `"Linux-amd64"`; fall through to `None`. -/
def findPatchUrl : List Asset → Option String
  | [] => none
  | a :: rest =>
    if strContains (a.name.getD "") "Linux-amd64" then a.browser_download_url
    else findPatchUrl rest

/-- Model of `get_linux_amd64_download_url(json_url)`, as a function of the server's
response: `raise_for_status` first (HTTP 400–599 raises), then JSON
parsing, then the first-match scan. -/
def get_linux_amd64_download_url (resp : HttpResp) :
    Except FetchError (Option String) :=
  if 400 ≤ resp.status ∧ resp.status < 600 then .error .transportError
  else
    match resp.jsonBody with
    | none => .error .formatError
    | some data => .ok (findPatchUrl (data.assets.getD []))

/-! ## Batch `.uz` decompression (`process_uz_files`, lines 121–163)

The relevant state: whether the `ucc-bin-amd64` file exists (`os.stat`
raises `FileNotFoundError` if not), its permission bits, whether `os.chmod`
succeeds, whether the `Maps` directory exists, the `.uz` files `glob`
discovers under it, and the exit code `run_cmd` observes for the
decompression tool on each file. -/

/-- Value of `stat.S_IXUSR ||| stat.S_IXGRP ||| stat.S_IXOTH` (0o100 + 0o10 + 0o1). -/
def execMask : Nat := 0o111

/-- The state `process_uz_files` reads. -/
structure UzState where
  uccExists : Bool
  uccMode : Nat
  chmodOk : Bool
  mapsExists : Bool
  uzFiles : List String
  toolExit : String → Int

/-- The claimed report type of the batch step.  Modelled from the spec:
`decompressAll(rootDir, toolPath) -> report{processed:int, failed:int}` —
the source function has no such return value (it returns `None` on every
path), so this type exists only to state what the claim asserts. -/
structure Report where
  processed : Nat
  failed : Nat
deriving Repr, DecidableEq

/-- The uncaught exception `process_uz_files` can raise: `os.stat` on a
missing tool path. -/
inductive PyErr where
  | fileNotFound
deriving Repr, DecidableEq

/-- What one completed call of `process_uz_files` did: whether the chmod
fix was attempted, whether its failure message was printed (early return),
whether the missing-`Maps` skip notice was logged, the files the tool was
invoked on (in order), the files whose failure was logged, and the Python
return value (always `None`, i.e. `none`). -/
structure UzRun where
  chmodAttempted : Bool
  permFailureLogged : Bool
  skipLogged : Bool
  invocations : List String
  errorLogs : List String
  retval : Option Report
deriving Repr, DecidableEq

/-- The `for uz in uz_files` loop: every file is processed in order
(`done += 1`, progress log, `run_cmd`), and a non-zero exit logs an error
and `continue`s.  Returns (files invoked on, files whose error was
logged). -/
def uzLoop (toolExit : String → Int) : List String → List String × List String
  | [] => ([], [])
  | uz :: rest =>
    let r := uzLoop toolExit rest
    (uz :: r.1, if toolExit uz != 0 then uz :: r.2 else r.2)

/-- Model of `process_uz_files(base_dir, system64_dir)`.  In source order: `os.stat`
on the tool (raises if the file is missing), the executable-bit check and
chmod attempt (early return if chmod raises `OSError`), the `Maps`
existence check (early return with a skip notice), the recursive glob, and
the per-file loop.  Every non-raising path returns `None`. -/
def process_uz_files (s : UzState) : Except PyErr UzRun :=
  if !s.uccExists then .error .fileNotFound
  else if (s.uccMode &&& execMask == 0) && !s.chmodOk then
    .ok ⟨true, true, false, [], [], none⟩
  else if !s.mapsExists then
    .ok ⟨s.uccMode &&& execMask == 0, false, true, [], [], none⟩
  else
    .ok ⟨s.uccMode &&& execMask == 0, false, false,
         (uzLoop s.toolExit s.uzFiles).1, (uzLoop s.toolExit s.uzFiles).2, none⟩

/-! ## Install-root creation (script lines 178–185)

Step 1 of `main` (the same logic as `create_directory`): if the install
root already exists it is renamed by appending `"_"` and a random
8-character suffix, then a fresh directory is created at the original
path.  The filesystem is an association list from paths to directory
contents; `os.rename` moves an entry to a new key, `os.makedirs` prepends
a fresh empty entry. -/

/-- Directory contents at a path (abstract: the entries inside it). -/
abbrev DirContent := List String

/-- A directory tree: path names mapped to their contents. -/
abbrev Fs := List (String × DirContent)

/-- Look a path up in the filesystem, first entry wins
(`os.path.exists` is `isSome`). -/
def fsLookup : Fs → String → Option DirContent
  | [], _ => none
  | e :: rest, p => if e.1 == p then some e.2 else fsLookup rest p

/-- Model of `os.rename(old, new)`: the entry keyed `old` is re-keyed `new`. -/
def fsRename (fs : Fs) (old new : String) : Fs :=
  fs.map (fun e => if e.1 == old then (new, e.2) else e)

/-- Model of `os.makedirs(p)`: a fresh empty directory appears at `p`. -/
def fsMkdir (fs : Fs) (p : String) : Fs := (p, []) :: fs

/-- Step 1 of `main`: rename a pre-existing `base` to
`base ++ "_" ++ suffix` (the randomized suffix drawn at line 180), then
`os.makedirs(base)`. -/
def createInstallRoot (fs : Fs) (base suffix : String) : Fs :=
  if (fsLookup fs base).isSome then
    fsMkdir (fsRename fs base (base ++ "_" ++ suffix)) base
  else fsMkdir fs base

/-! ## The orchestrator (`main`, lines 166–255)

Each external effect of the pipeline is a stage event; the world record
holds the stubbed outcome of every external call.  `sys.exit(1)` paths end
the run as `exitFail`; an uncaught exception inside
`process_uz_files` ends it as `crash`. -/

/-- The observable pipeline stages (each is the issue of one external
call: a download, the checksum read, the metadata GET, a `7z` run, or the
batch-decompression step). -/
inductive Stage where
  | fetchImage
  | verifyChecksum
  | resolvePatch
  | fetchPatch
  | fetchConfig
  | extractImage
  | extractPatch
  | batchDecompress
deriving Repr, DecidableEq

/-- How a run of `main` ends. -/
inductive MainResult where
  | success
  | exitFail
  | crash
deriving Repr, DecidableEq

/-- The stubbed environment `main` runs against: tool availability, the
`curl` exit codes, the downloaded ISO's bytes, the metadata response, the
`7z` exit codes, and the state `process_uz_files` will see. -/
structure World where
  have7z : Bool
  haveCurl : Bool
  fetchImageExit : Int
  imageBytes : List Nat
  patchResp : HttpResp
  fetchPatchExit : Int
  cfgExit : String → Int
  isoExtractExit : Int
  patchExtractExit : Int
  system64Exists : Bool
  uz : UzState

/-- The three configuration files downloaded in step 5, in order. -/
def cfgFiles : List String := ["UnrealTournament.ini", "User.ini", "skip.txt"]

/-- The step-5 loop: one `download_file` per config file, in order;
`download_file` calls `sys.exit(1)` on a non-zero `curl` exit, so a failure
stops the loop.  Returns the download events issued and whether all
succeeded. -/
def downloadCfgs (exitOf : String → Int) : List String → List Stage × Bool
  | [] => ([], true)
  | f :: rest =>
    if exitOf f != 0 then ([.fetchConfig], false)
    else
      let r := downloadCfgs exitOf rest
      (.fetchConfig :: r.1, r.2)

/-- Model of `main()`: the stage events issued, in order, and how the run ended.
Mirrors the source control flow: tool pre-flight checks, ISO download,
MD5 verification against `expected_iso_md5`, patch resolution (any raised
exception is caught and exits; a `None` URL exits), patch download, the
three config downloads, ISO extraction, piped patch extraction, the
`System64` existence check, then `process_uz_files` (whose own exception
would propagate as a crash); the config copy of step 8 catches its
exceptions and step 9 only writes the desktop file. -/
def mainRun (w : World) : List Stage × MainResult :=
  if !w.have7z then ([], .exitFail)
  else if !w.haveCurl then ([], .exitFail)
  else if w.fetchImageExit != 0 then ([.fetchImage], .exitFail)
  else if md5sum w.imageBytes != expected_iso_md5 then
    ([.fetchImage, .verifyChecksum], .exitFail)
  else
    match get_linux_amd64_download_url w.patchResp with
    | .error _ => ([.fetchImage, .verifyChecksum, .resolvePatch], .exitFail)
    | .ok none => ([.fetchImage, .verifyChecksum, .resolvePatch], .exitFail)
    | .ok (some _) =>
      if w.fetchPatchExit != 0 then
        ([.fetchImage, .verifyChecksum, .resolvePatch, .fetchPatch], .exitFail)
      else if !(downloadCfgs w.cfgExit cfgFiles).2 then
        ([.fetchImage, .verifyChecksum, .resolvePatch, .fetchPatch]
          ++ (downloadCfgs w.cfgExit cfgFiles).1, .exitFail)
      else if w.isoExtractExit != 0 then
        ([.fetchImage, .verifyChecksum, .resolvePatch, .fetchPatch]
          ++ (downloadCfgs w.cfgExit cfgFiles).1 ++ [.extractImage], .exitFail)
      else if w.patchExtractExit != 0 then
        ([.fetchImage, .verifyChecksum, .resolvePatch, .fetchPatch]
          ++ (downloadCfgs w.cfgExit cfgFiles).1
          ++ [.extractImage, .extractPatch], .exitFail)
      else if !w.system64Exists then
        ([.fetchImage, .verifyChecksum, .resolvePatch, .fetchPatch]
          ++ (downloadCfgs w.cfgExit cfgFiles).1
          ++ [.extractImage, .extractPatch], .exitFail)
      else
        match process_uz_files w.uz with
        | .error _ =>
          ([.fetchImage, .verifyChecksum, .resolvePatch, .fetchPatch]
            ++ (downloadCfgs w.cfgExit cfgFiles).1
            ++ [.extractImage, .extractPatch, .batchDecompress], .crash)
        | .ok _ =>
          ([.fetchImage, .verifyChecksum, .resolvePatch, .fetchPatch]
            ++ (downloadCfgs w.cfgExit cfgFiles).1
            ++ [.extractImage, .extractPatch, .batchDecompress], .success)

/-- The seven stages named by the pipeline-order property, in their claimed
order. -/
def canonicalStages : List Stage :=
  [.fetchImage, .verifyChecksum, .resolvePatch, .fetchPatch,
   .extractImage, .extractPatch, .batchDecompress]

/-- A trace restricted to the seven canonical stages (config downloads are
interleaved between `fetchPatch` and `extractImage` and are not among
them). -/
def sevenOf (t : List Stage) : List Stage :=
  t.filter (fun s => s != Stage.fetchConfig)

/-! ## Spec-side comparison

Modelled from the spec: the checksum claim asserts the digest comparison is
case-insensitive ("compares it to `expectedDigestHex` case-insensitively").
The source compares with Python `!=`; this definition exists only to state
the claimed comparison and diff it against the source's. -/

/-- Lower-case an ASCII letter, leave everything else unchanged. -/
def asciiLower (c : Char) : Char :=
  if 'A' ≤ c ∧ c ≤ 'Z' then Char.ofNat (c.toNat + 32) else c

/-- Modelled from the spec: case-insensitive equality of two hex strings
(the comparison the Checksum Verifier is claimed to perform). -/
def eqCaseInsensitive (a b : String) : Bool :=
  a.data.map asciiLower == b.data.map asciiLower

/-! ## Concrete states used to instantiate the theorems -/

/-- Uppercase spelling of the MD5 digest of the empty byte sequence. -/
def upperEmptyDigest : String := "D41D8CD98F00B204E9800998ECF8427E"

/-- A batch state: tool present and executable, `Maps` present, two `.uz`
files of which exactly the first makes the tool exit non-zero. -/
def uzStateTwoFiles : UzState :=
  ⟨true, 0o755, true, true, ["Maps/CTF-Face.unr.uz", "Maps/DM-Deck16.unr.uz"],
   fun f => if f == "Maps/CTF-Face.unr.uz" then 1 else 0⟩

/-- A batch state: the tool binary is absent and the `Maps` directory is
also absent. -/
def uzStateNoToolNoMaps : UzState :=
  ⟨false, 0, true, false, [], fun _ => 0⟩

/-- A batch state: tool present and executable, `Maps` absent. -/
def uzStateNoMaps : UzState :=
  ⟨true, 0o755, true, false, [], fun _ => 0⟩

/-- A batch state: tool present but not executable, and `chmod` fails. -/
def uzStateChmodFails : UzState :=
  ⟨true, 0o644, false, true, ["Maps/DM-Morpheus.unr.uz"], fun _ => 0⟩

/-- A batch state: the tool binary is absent though everything else is in
place. -/
def uzStateNoTool : UzState :=
  ⟨false, 0o755, true, true, ["Maps/DM-Liandri.unr.uz"], fun _ => 0⟩

/-- A metadata response whose status is a server failure. -/
def resp500 : HttpResp := ⟨500, some ⟨some []⟩⟩

/-- The two-asset metadata document of the resolver claim. -/
def exampleAssets : List Asset :=
  [⟨some "Foo-Linux-amd64.tar.bz2", some "A"⟩,
   ⟨some "Foo-Windows.zip", some "B"⟩]

/-- A metadata document with no matching asset name. -/
def exampleAssetsNoMatch : List Asset :=
  [⟨some "Foo-Windows.zip", some "B"⟩]

/-- A starting filesystem in which the install root already exists with
some contents, next to an unrelated directory. -/
def fsWithRoot : Fs :=
  [("/home/u/UnrealTournament", ["Maps", "System"]), ("/home/u/other", [])]

/-- A stub world: both tools present and the image fetch succeeds, but the
downloaded bytes are empty, so the checksum stage fails. -/
def worldBadIso : World :=
  ⟨true, true, 0, [], ⟨200, some ⟨some []⟩⟩, 0, fun _ => 0, 0, 0, true,
   uzStateNoMaps⟩

/-! ## Supporting lemmas -/

/-- Concatenating the chunks of a list gives back the list, for any fuel
at least the list length (and a positive chunk size). -/
theorem chunksOfAux_flatten {α : Type} (m : Nat) :
    ∀ (fuel : Nat) (l : List α), l.length ≤ fuel →
      (chunksOfAux (m + 1) fuel l).flatten = l := by
  intro fuel
  induction fuel with
  | zero =>
    intro l hl
    cases l with
    | nil => rfl
    | cons x xs => simp at hl
  | succ f ih =>
    intro l hl
    cases l with
    | nil => rfl
    | cons x xs =>
      simp only [chunksOfAux, List.flatten_cons, Nat.add_sub_cancel]
      rw [ih (List.drop m xs) ?_]
      · have h : List.drop m xs = List.drop (m + 1) (x :: xs) := by
          simp [List.drop_succ_cons]
        rw [h, List.take_append_drop]
      · simp only [List.length_drop]
        simp only [List.length_cons] at hl
        omega

/-- Concatenating the chunks of a list gives back the list (for a positive
chunk size). -/
theorem chunksOf_flatten {α : Type} (m : Nat) (l : List α) :
    (chunksOf (m + 1) l).flatten = l :=
  chunksOfAux_flatten m l.length l (Nat.le_refl _)

/-- Folding the accumulator update over a chunk list appends all the
chunks. -/
theorem foldl_md5CtxUpdate (chunks : List (List Nat)) :
    ∀ acc : List Nat, chunks.foldl md5CtxUpdate acc = acc ++ chunks.flatten := by
  induction chunks with
  | nil => intro acc; simp [md5CtxUpdate]
  | cons c rest ih =>
    intro acc
    simp [md5CtxUpdate, ih (acc ++ c), List.append_assoc]

/-- The streamed (4096-byte-chunked) digest of the script's `md5sum` equals
the direct MD5 of the whole byte sequence. -/
theorem md5sum_eq_md5Hex (fileBytes : List Nat) :
    md5sum fileBytes = md5Hex fileBytes := by
  unfold md5sum md5CtxHexdigest md5CtxInit
  rw [foldl_md5CtxUpdate, List.nil_append]
  have h := chunksOf_flatten 4095 fileBytes
  norm_num at h
  rw [h]

/-- The per-file loop of `process_uz_files` invokes the tool on every file
in order and logs an error for exactly the files with non-zero exit. -/
theorem uzLoop_eq (toolExit : String → Int) :
    ∀ files : List String,
      uzLoop toolExit files = (files, files.filter (fun f => toolExit f != 0)) := by
  intro files
  induction files with
  | nil => rfl
  | cons f rest ih =>
    simp only [uzLoop, ih, List.filter_cons]

/-- The asset loop returns the `browser_download_url` of the first asset
whose defaulted name contains the platform tag. -/
theorem findPatchUrl_first_match :
    ∀ assets : List Asset,
      findPatchUrl assets =
        (assets.find? (fun a => strContains (a.name.getD "") "Linux-amd64")).bind
          Asset.browser_download_url := by
  intro assets
  induction assets with
  | nil => rfl
  | cons a rest ih =>
    simp only [findPatchUrl, List.find?]
    by_cases h : strContains (a.name.getD "") "Linux-amd64"
    · simp [h]
    · simp only [h] at *
      simp [ih]

/-- Renaming moves the looked-up contents from the old key to the new key,
provided the new key was absent. -/
theorem fsLookup_rename_moved :
    ∀ (fs : Fs) (old nw : String) (contents : DirContent),
      fsLookup fs old = some contents → fsLookup fs nw = none →
      fsLookup (fsRename fs old nw) nw = some contents := by
  intro fs old nw contents hold hnew
  induction fs with
  | nil => simp [fsLookup] at hold
  | cons e rest ih =>
    simp only [fsLookup, fsRename, List.map_cons] at *
    by_cases hk : (e.1 == old) = true
    · rw [if_pos hk] at hold
      rw [if_pos hk]
      simpa [fsLookup] using hold
    · rw [if_neg hk] at hold
      rw [if_neg hk]
      have hne : (e.1 == nw) = false := by
        by_contra hc
        simp only [Bool.not_eq_false] at hc
        rw [if_pos hc] at hnew
        exact Option.noConfusion hnew
      rw [hne] at hnew
      simp only [Bool.false_eq_true, if_false] at hnew
      simp only [fsLookup, hne, Bool.false_eq_true, if_false]
      exact ih hold hnew

/-- Renaming does not touch the lookup of any unrelated path. -/
theorem fsLookup_rename_other :
    ∀ (fs : Fs) (old nw p : String), p ≠ old → p ≠ nw →
      fsLookup (fsRename fs old nw) p = fsLookup fs p := by
  intro fs old nw p hpo hpn
  induction fs with
  | nil => rfl
  | cons e rest ih =>
    simp only [fsRename, List.map_cons]
    by_cases hk : (e.1 == old) = true
    · have h1 : (nw == p) = false := by
        rw [beq_eq_false_iff_ne]
        exact fun h => hpn h.symm
      have h2 : (e.1 == p) = false := by
        rw [beq_eq_false_iff_ne]
        have : e.1 = old := eq_of_beq hk
        rw [this]
        exact fun h => hpo h.symm
      rw [if_pos hk]
      simp only [fsLookup, h1, h2, Bool.false_eq_true, if_false]
      exact ih
    · rw [if_neg hk]
      simp only [fsLookup]
      by_cases hp : (e.1 == p) = true
      · rw [if_pos hp, if_pos hp]
      · rw [if_neg hp, if_neg hp]
        exact ih

/-- Creating a directory makes the empty directory appear at its path. -/
theorem fsLookup_mkdir_self (fs : Fs) (p : String) :
    fsLookup (fsMkdir fs p) p = some [] := by
  simp [fsLookup, fsMkdir]

/-- Creating a directory does not touch the lookup of any other path. -/
theorem fsLookup_mkdir_other (fs : Fs) (p q : String) (h : q ≠ p) :
    fsLookup (fsMkdir fs p) q = fsLookup fs q := by
  have hb : (p == q) = false := by
    rw [beq_eq_false_iff_ne]
    exact fun hc => h hc.symm
  simp [fsLookup, fsMkdir, hb]

/-- When the exec bits are already set or `chmod` succeeds, the
early-return guard of `process_uz_files` is false. -/
theorem chmodGuard_false (s : UzState)
    (hfix : s.uccMode &&& execMask ≠ 0 ∨ s.chmodOk = true) :
    ((s.uccMode &&& execMask == 0) && !s.chmodOk) = false := by
  rcases hfix with h | h
  · have hb : (s.uccMode &&& execMask == 0) = false := by
      rw [beq_eq_false_iff_ne]
      exact h
    simp [hb]
  · simp [h]

/-- The canonical-stage restriction distributes over trace
concatenation. -/
theorem sevenOf_append (a b : List Stage) :
    sevenOf (a ++ b) = sevenOf a ++ sevenOf b :=
  List.filter_append a b

/-- The step-5 config downloads contribute nothing to the canonical-stage
restriction of a trace. -/
theorem sevenOf_downloadCfgs (exitOf : String → Int) :
    ∀ files : List String, sevenOf (downloadCfgs exitOf files).1 = [] := by
  intro files
  induction files with
  | nil => rfl
  | cons f rest ih =>
    simp only [downloadCfgs]
    split
    · rfl
    · simp only [sevenOf, List.filter_cons] at *
      simpa using ih

/-! ## The claims -/

/-- C1: for every release-metadata document, the resolver scans the asset
descriptors in the order given and returns the download location of the
first descriptor whose name contains the predicate string as a
case-sensitive substring; no matching descriptor yields `None` (not an
error); and on the two-asset example with predicate `Linux-amd64` the
result is `"A"`. -/
theorem c1_resolve_first_match :
    (∀ assets : List Asset,
      findPatchUrl assets =
        (assets.find? (fun a => strContains (a.name.getD "") "Linux-amd64")).bind
          Asset.browser_download_url) ∧
    get_linux_amd64_download_url ⟨200, some ⟨some exampleAssets⟩⟩ =
      .ok (some "A") ∧
    get_linux_amd64_download_url ⟨200, some ⟨some exampleAssetsNoMatch⟩⟩ =
      .ok none :=
  ⟨findPatchUrl_first_match, rfl, rfl⟩

/-- C2 (counterexample): on two discovered `.uz` files of which one fails,
`process_uz_files` does invoke the tool on both and logs the one failure,
but its Python return value is `None`, not a report with
`processed == 2` and `failed == 1` as the claim states. -/
theorem c2_counterexample :
    (process_uz_files uzStateTwoFiles).map UzRun.invocations =
      .ok ["Maps/CTF-Face.unr.uz", "Maps/DM-Deck16.unr.uz"] ∧
    (process_uz_files uzStateTwoFiles).map UzRun.errorLogs =
      .ok ["Maps/CTF-Face.unr.uz"] ∧
    (process_uz_files uzStateTwoFiles).map UzRun.retval ≠
      .ok (some ⟨2, 1⟩) :=
  ⟨rfl, rfl, fun h => Option.noConfusion (Except.ok.inj h)⟩

/-- C2 (amended): for every list of N discovered `.uz` files of which M
invocations fail, the batch step invokes the tool once on each of the N
files in order (a non-zero exit never prevents a later invocation) and
logs an error for exactly the M failing files; however it returns no
report — its return value is `None`. -/
theorem c2_all_invoked_none_returned (s : UzState)
    (hucc : s.uccExists = true)
    (hfix : s.uccMode &&& execMask ≠ 0 ∨ s.chmodOk = true)
    (hmaps : s.mapsExists = true) :
    process_uz_files s =
      .ok ⟨s.uccMode &&& execMask == 0, false, false, s.uzFiles,
           s.uzFiles.filter (fun f => s.toolExit f != 0), none⟩ := by
  unfold process_uz_files
  rw [hucc, chmodGuard_false s hfix, hmaps]
  simp [uzLoop_eq]

/-- C2 witness: the amended statement at a concrete state with two files,
one failing. -/
theorem c2_witness :
    process_uz_files uzStateTwoFiles =
      .ok ⟨false, false, false,
           ["Maps/CTF-Face.unr.uz", "Maps/DM-Deck16.unr.uz"],
           ["Maps/CTF-Face.unr.uz"], none⟩ :=
  c2_all_invoked_none_returned uzStateTwoFiles rfl (Or.inl (by decide)) rfl

/-- C3 (counterexample): in a state where the `Maps` directory does not
exist but the decompression tool binary is also absent, `process_uz_files`
raises an uncaught file-access error instead of being a no-op, because it
stats the tool before checking for `Maps`. -/
theorem c3_counterexample :
    uzStateNoToolNoMaps.mapsExists = false ∧
    process_uz_files uzStateNoToolNoMaps = .error .fileNotFound :=
  ⟨rfl, rfl⟩

/-- C3 (amended): provided the tool binary exists and is executable (or
the chmod fix succeeds), a missing `Maps` directory makes the batch step a
no-op: no error, zero tool invocations, a logged skip notice, and the
`None` return value (no report object is produced). -/
theorem c3_skip_when_maps_missing (s : UzState)
    (hucc : s.uccExists = true)
    (hfix : s.uccMode &&& execMask ≠ 0 ∨ s.chmodOk = true)
    (hmaps : s.mapsExists = false) :
    process_uz_files s =
      .ok ⟨s.uccMode &&& execMask == 0, false, true, [], [], none⟩ := by
  unfold process_uz_files
  rw [hucc, chmodGuard_false s hfix, hmaps]
  simp

/-- C3 witness: the amended statement at a concrete state with the tool
present and `Maps` absent. -/
theorem c3_witness :
    process_uz_files uzStateNoMaps = .ok ⟨false, false, true, [], [], none⟩ :=
  c3_skip_when_maps_missing uzStateNoMaps rfl (Or.inl (by decide)) rfl

/-- C4 (counterexample): the uppercase spelling of the correct digest of
the empty file is equal to the computed digest case-insensitively, yet the
script's comparison rejects it — the comparison at line 200 is exact
string equality, not case-insensitive. -/
theorem c4_counterexample :
    eqCaseInsensitive (md5sum []) upperEmptyDigest = true ∧
    checksumAccepts [] upperEmptyDigest = false :=
  ⟨by decide, by decide⟩

/-- C4 (amended): for every file and expected digest hex string, the
checksum verification accepts if and only if the computed lowercase
hexadecimal digest of the file's bytes equals the expected string exactly
(case-sensitively); an uppercase spelling of the correct digest is
rejected. -/
theorem c4_accept_iff_exact_match (fileBytes : List Nat) (expected : String) :
    checksumAccepts fileBytes expected = true ↔ md5Hex fileBytes = expected := by
  unfold checksumAccepts
  rw [md5sum_eq_md5Hex]
  exact beq_iff_eq

/-- C5: the streaming digest computed by feeding the file to the
accumulator in 4096-byte chunks equals the digest of the whole byte
sequence computed in one pass; in particular the empty file yields the
digest of empty input. -/
theorem c5_chunked_fold_eq_direct_hash :
    (∀ fileBytes : List Nat, md5sum fileBytes = md5Hex fileBytes) ∧
    md5sum [] = "d41d8cd98f00b204e9800998ecf8427e" :=
  ⟨md5sum_eq_md5Hex, by decide⟩

/-- C6: for every metadata fetch whose response status indicates failure,
the resolver raises a transport error, which is distinguishable from the
`None` it returns when the document parses but no descriptor matches; it
never returns not-found on a transport failure. -/
theorem c6_transport_error_not_notfound (resp : HttpResp)
    (h1 : 400 ≤ resp.status) (h2 : resp.status < 600) :
    get_linux_amd64_download_url resp = .error .transportError ∧
    (Except.error FetchError.transportError :
      Except FetchError (Option String)) ≠ Except.ok none := by
  refine ⟨?_, fun h => Except.noConfusion h⟩
  unfold get_linux_amd64_download_url
  rw [if_pos ⟨h1, h2⟩]

/-- C6 witness: a simulated 500 response. -/
theorem c6_witness :
    get_linux_amd64_download_url resp500 = .error .transportError ∧
    (Except.error FetchError.transportError :
      Except FetchError (Option String)) ≠ Except.ok none :=
  c6_transport_error_not_notfound resp500 (by decide) (by decide)

/-- C7: when the decompression tool file exists but lacks every executable
permission bit, the batch step attempts the chmod fix itself; if the chmod
fails, the batch step fails — the permission failure is reported and no
per-file decompression is attempted; if the chmod succeeds, the batch
proceeds normally. -/
theorem c7_chmod_fix_gates_batch (s : UzState)
    (hucc : s.uccExists = true)
    (hbits : s.uccMode &&& execMask = 0) :
    (s.chmodOk = false →
      process_uz_files s = .ok ⟨true, true, false, [], [], none⟩) ∧
    (s.chmodOk = true → s.mapsExists = true →
      process_uz_files s =
        .ok ⟨true, false, false, s.uzFiles,
             s.uzFiles.filter (fun f => s.toolExit f != 0), none⟩) := by
  constructor
  · intro hc
    unfold process_uz_files
    rw [hucc, hbits, hc]
    simp
  · intro hc hm
    unfold process_uz_files
    rw [hucc, hbits, hc, hm]
    simp [uzLoop_eq]

/-- C7 witness: a concrete state with the exec bits missing and a failing
chmod — the batch is skipped with the permission failure reported. -/
theorem c7_witness :
    process_uz_files uzStateChmodFails = .ok ⟨true, true, false, [], [], none⟩ :=
  (c7_chmod_fix_gates_batch uzStateChmodFails rfl (by decide)).1 rfl

/-- C8: for every run of the orchestrator, the canonical stages occur in
the fixed order fetch-image, verify-checksum, resolve-patch, fetch-patch,
extract-image, extract-patch, batch-decompress — the emitted trace is
always a prefix of that order (so a failure at any stage prevents every
later stage), and a fully successful run emits all seven. -/
theorem c8_pipeline_order (w : World) :
    ∃ k : Nat, sevenOf (mainRun w).1 = canonicalStages.take k ∧
      ((mainRun w).2 = MainResult.success →
        sevenOf (mainRun w).1 = canonicalStages) := by
  cases h1 : w.have7z with
  | false =>
    have hm : mainRun w = ([], .exitFail) := by simp [mainRun, h1]
    rw [hm]
    exact ⟨0, rfl, fun h => MainResult.noConfusion h⟩
  | true =>
    cases h2 : w.haveCurl with
    | false =>
      have hm : mainRun w = ([], .exitFail) := by simp [mainRun, h1, h2]
      rw [hm]
      exact ⟨0, rfl, fun h => MainResult.noConfusion h⟩
    | true =>
      cases h3 : w.fetchImageExit != 0 with
      | true =>
        have hm : mainRun w = ([.fetchImage], .exitFail) := by
          simp [mainRun, h1, h2, h3]
        rw [hm]
        exact ⟨1, by decide, fun h => MainResult.noConfusion h⟩
      | false =>
        cases h4 : md5sum w.imageBytes != expected_iso_md5 with
        | true =>
          have hm : mainRun w = ([.fetchImage, .verifyChecksum], .exitFail) := by
            simp [mainRun, h1, h2, h3, h4]
          rw [hm]
          exact ⟨2, by decide, fun h => MainResult.noConfusion h⟩
        | false =>
          cases h5 : get_linux_amd64_download_url w.patchResp with
          | error e =>
            have hm : mainRun w =
                ([.fetchImage, .verifyChecksum, .resolvePatch], .exitFail) := by
              simp [mainRun, h1, h2, h3, h4, h5]
            rw [hm]
            exact ⟨3, by decide, fun h => MainResult.noConfusion h⟩
          | ok o =>
            cases o with
            | none =>
              have hm : mainRun w =
                  ([.fetchImage, .verifyChecksum, .resolvePatch],
                   .exitFail) := by
                simp [mainRun, h1, h2, h3, h4, h5]
              rw [hm]
              exact ⟨3, by decide, fun h => MainResult.noConfusion h⟩
            | some u =>
              cases h6 : w.fetchPatchExit != 0 with
              | true =>
                have hm : mainRun w =
                    ([.fetchImage, .verifyChecksum, .resolvePatch,
                      .fetchPatch], .exitFail) := by
                  simp [mainRun, h1, h2, h3, h4, h5, h6]
                rw [hm]
                exact ⟨4, by decide, fun h => MainResult.noConfusion h⟩
              | false =>
                cases h7 : (downloadCfgs w.cfgExit cfgFiles).2 with
                | false =>
                  have hm : mainRun w =
                      ([Stage.fetchImage, Stage.verifyChecksum,
                        Stage.resolvePatch, Stage.fetchPatch]
                        ++ (downloadCfgs w.cfgExit cfgFiles).1,
                       .exitFail) := by
                    simp [mainRun, h1, h2, h3, h4, h5, h6, h7]
                  rw [hm]
                  refine ⟨4, ?_, fun h => MainResult.noConfusion h⟩
                  rw [sevenOf_append, sevenOf_downloadCfgs]
                  decide
                | true =>
                  cases h8 : w.isoExtractExit != 0 with
                  | true =>
                    have hm : mainRun w =
                        ([Stage.fetchImage, Stage.verifyChecksum,
                          Stage.resolvePatch, Stage.fetchPatch]
                          ++ (downloadCfgs w.cfgExit cfgFiles).1
                          ++ [Stage.extractImage], .exitFail) := by
                      simp [mainRun, h1, h2, h3, h4, h5, h6, h7, h8]
                    rw [hm]
                    refine ⟨5, ?_, fun h => MainResult.noConfusion h⟩
                    rw [sevenOf_append, sevenOf_append, sevenOf_downloadCfgs]
                    decide
                  | false =>
                    cases h9 : w.patchExtractExit != 0 with
                    | true =>
                      have hm : mainRun w =
                          ([Stage.fetchImage, Stage.verifyChecksum,
                            Stage.resolvePatch, Stage.fetchPatch]
                            ++ (downloadCfgs w.cfgExit cfgFiles).1
                            ++ [Stage.extractImage, Stage.extractPatch],
                           .exitFail) := by
                        simp [mainRun, h1, h2, h3, h4, h5, h6, h7, h8, h9]
                      rw [hm]
                      refine ⟨6, ?_, fun h => MainResult.noConfusion h⟩
                      rw [sevenOf_append, sevenOf_append, sevenOf_downloadCfgs]
                      decide
                    | false =>
                      cases h10 : w.system64Exists with
                      | false =>
                        have hm : mainRun w =
                            ([Stage.fetchImage, Stage.verifyChecksum,
                              Stage.resolvePatch, Stage.fetchPatch]
                              ++ (downloadCfgs w.cfgExit cfgFiles).1
                              ++ [Stage.extractImage, Stage.extractPatch],
                             .exitFail) := by
                          simp [mainRun, h1, h2, h3, h4, h5, h6, h7, h8, h9,
                            h10]
                        rw [hm]
                        refine ⟨6, ?_, fun h => MainResult.noConfusion h⟩
                        rw [sevenOf_append, sevenOf_append,
                          sevenOf_downloadCfgs]
                        decide
                      | true =>
                        cases h11 : process_uz_files w.uz with
                        | error e2 =>
                          have hm : mainRun w =
                              ([Stage.fetchImage, Stage.verifyChecksum,
                                Stage.resolvePatch, Stage.fetchPatch]
                                ++ (downloadCfgs w.cfgExit cfgFiles).1
                                ++ [Stage.extractImage, Stage.extractPatch,
                                    Stage.batchDecompress], .crash) := by
                            simp [mainRun, h1, h2, h3, h4, h5, h6, h7, h8,
                              h9, h10, h11]
                          rw [hm]
                          refine ⟨7, ?_, fun h => MainResult.noConfusion h⟩
                          rw [sevenOf_append, sevenOf_append,
                            sevenOf_downloadCfgs]
                          decide
                        | ok r =>
                          have hm : mainRun w =
                              ([Stage.fetchImage, Stage.verifyChecksum,
                                Stage.resolvePatch, Stage.fetchPatch]
                                ++ (downloadCfgs w.cfgExit cfgFiles).1
                                ++ [Stage.extractImage, Stage.extractPatch,
                                    Stage.batchDecompress], .success) := by
                            simp [mainRun, h1, h2, h3, h4, h5, h6, h7, h8,
                              h9, h10, h11]
                          rw [hm]
                          refine ⟨7, ?_, fun _ => ?_⟩ <;>
                          · rw [sevenOf_append, sevenOf_append,
                              sevenOf_downloadCfgs]
                            decide

/-- C8 witness: the pipeline-order property at a concrete stub world whose
checksum stage fails. -/
theorem c8_witness :
    ∃ k : Nat, sevenOf (mainRun worldBadIso).1 = canonicalStages.take k ∧
      ((mainRun worldBadIso).2 = MainResult.success →
        sevenOf (mainRun worldBadIso).1 = canonicalStages) :=
  c8_pipeline_order worldBadIso

/-- C9: when the install root already exists, step 1 of the orchestrator
does not fail and does not delete or overwrite it: the old directory's
contents are found intact under the new name (the original path with the
randomized suffix appended, which is distinct from the original path), a
fresh empty install root exists at the original path, and every unrelated
path is untouched. -/
theorem c9_existing_root_preserved (fs : Fs) (base suffix : String)
    (contents : DirContent)
    (hex : fsLookup fs base = some contents)
    (hfresh : fsLookup fs (base ++ "_" ++ suffix) = none) :
    base ++ "_" ++ suffix ≠ base ∧
    fsLookup (createInstallRoot fs base suffix) (base ++ "_" ++ suffix) =
      some contents ∧
    fsLookup (createInstallRoot fs base suffix) base = some [] ∧
    ∀ p : String, p ≠ base → p ≠ base ++ "_" ++ suffix →
      fsLookup (createInstallRoot fs base suffix) p = fsLookup fs p := by
  have hlen : ("_" ++ suffix).length = 1 + suffix.length := by
    rw [String.length_append]
    have h1 : "_".length = 1 := rfl
    omega
  have hne : base ++ "_" ++ suffix ≠ base := by
    intro h
    have hl := congrArg String.length h
    rw [String.append_assoc, String.length_append, hlen] at hl
    omega
  have hroot : createInstallRoot fs base suffix =
      fsMkdir (fsRename fs base (base ++ "_" ++ suffix)) base := by
    unfold createInstallRoot
    rw [hex]
    rfl
  refine ⟨hne, ?_, ?_, ?_⟩
  · rw [hroot, fsLookup_mkdir_other _ _ _ hne]
    exact fsLookup_rename_moved fs base (base ++ "_" ++ suffix) contents hex
      hfresh
  · rw [hroot]
    exact fsLookup_mkdir_self _ _
  · intro p hpb hpn
    rw [hroot, fsLookup_mkdir_other _ _ _ hpb]
    exact fsLookup_rename_other fs base (base ++ "_" ++ suffix) p hpb hpn

/-- C9 witness: a concrete filesystem whose install root exists; the rename
target is fresh. -/
theorem c9_witness :
    "/home/u/UnrealTournament" ++ "_" ++ "k3x9q1zp" ≠
      "/home/u/UnrealTournament" ∧
    fsLookup (createInstallRoot fsWithRoot "/home/u/UnrealTournament"
        "k3x9q1zp")
      ("/home/u/UnrealTournament" ++ "_" ++ "k3x9q1zp") =
      some ["Maps", "System"] ∧
    fsLookup (createInstallRoot fsWithRoot "/home/u/UnrealTournament"
        "k3x9q1zp")
      "/home/u/UnrealTournament" = some [] := by
  have h := c9_existing_root_preserved fsWithRoot "/home/u/UnrealTournament"
    "k3x9q1zp" ["Maps", "System"] rfl rfl
  exact ⟨h.1, h.2.1, h.2.2.1⟩

/-- C10: `process_uz_files` stats the decompression tool unconditionally
before checking whether the `Maps` directory exists, so whenever the tool
binary is absent the call raises an uncaught file-access error — whatever
the rest of the state is — instead of the documented no-op or
permission-error behaviour. -/
theorem c10_stat_before_maps_check (s : UzState)
    (h : s.uccExists = false) :
    process_uz_files s = .error .fileNotFound := by
  unfold process_uz_files
  rw [h]
  rfl

/-- C10 witness: a concrete state with everything in place except the tool
binary. -/
theorem c10_witness :
    process_uz_files uzStateNoTool = .error .fileNotFound :=
  c10_stat_before_maps_check uzStateNoTool rfl

end UT99
